import Mathlib

/-!
Verification of the Markowitz_2.0 portfolio construction engine.

This file gives a shallow embedding of the numerical core of the
repository (the closed-form Markowitz solver in weight.cpp, the turnover
and slippage functions of TransactionCostModel.cpp, the constraint
projector of RiskConstraints.cpp, the rebalancing controller of
PortfolioRebalancer and the value-at-risk calculator of RiskMetrics)
and proves or refutes the testable properties stated for them.

Machine floating-point arithmetic is modelled by exact arithmetic: the
solver and turnover functions are embedded polymorphically over a field
(so that the theorems cover the real numbers and witnesses can be
evaluated over the rationals), and the components that take square roots
are embedded over the real numbers with Real.sqrt. Out-of-range vector
indexing and thrown exceptions are modelled with Option.
-/

namespace MarkowitzSolver

variable {n : ℕ} {K : Type} [Field K]

/-- Scalar A of the closed-form solver, from weight.cpp line 75:
A = (transpose(mu)*inverse(sigma)*mu)[0][0]. The matrix sigmaInv is the
value inverse(sigma) computed by the external linear-algebra library. -/
def markA (sigmaInv : Matrix (Fin n) (Fin n) K) (mu : Matrix (Fin n) (Fin 1) K) : K :=
  (mu.transpose * sigmaInv * mu) 0 0

/-- Scalar B of the closed-form solver, from weight.cpp line 76:
B = (transpose(mu)*inverse(sigma)*u)[0][0]. -/
def markB (sigmaInv : Matrix (Fin n) (Fin n) K) (mu u : Matrix (Fin n) (Fin 1) K) : K :=
  (mu.transpose * sigmaInv * u) 0 0

/-- Scalar C of the closed-form solver, from weight.cpp line 77:
C = (transpose(u)*inverse(sigma)*u)[0][0]. -/
def markC (sigmaInv : Matrix (Fin n) (Fin n) K) (u : Matrix (Fin n) (Fin 1) K) : K :=
  (u.transpose * sigmaInv * u) 0 0

/-- Scalar D of the closed-form solver, from weight.cpp line 78:
D = A - B * B / C. -/
def markD (sigmaInv : Matrix (Fin n) (Fin n) K) (mu u : Matrix (Fin n) (Fin 1) K) : K :=
  markA sigmaInv mu - markB sigmaInv mu u * markB sigmaInv mu u / markC sigmaInv u

/-- Two-term Markowitz weight formula of weight.cpp lines 82-83:
weights = inverse(sigma)*u / C * (A - B*targetReturn) / D
        + inverse(sigma)*mu / B * (targetReturn*B - B*B/C) / D.
The argument sigmaInv stands for the matrix inverse(sigma) that the
source computes with the external library and feeds to every term. -/
def calculateMarkowitzWeights (sigmaInv : Matrix (Fin n) (Fin n) K)
    (mu u : Matrix (Fin n) (Fin 1) K) (targetReturn : K) : Matrix (Fin n) (Fin 1) K :=
  ((markA sigmaInv mu - markB sigmaInv mu u * targetReturn)
      / markC sigmaInv u / markD sigmaInv mu u) • (sigmaInv * u)
  + ((targetReturn * markB sigmaInv mu u
        - markB sigmaInv mu u * markB sigmaInv mu u / markC sigmaInv u)
      / markB sigmaInv mu u / markD sigmaInv mu u) • (sigmaInv * mu)

/-- Modelled from the spec: the single-term closed form of section 4.1,
w = [Sigma^-1 u * (A - B tau) + Sigma^-1 mu * (C tau - B)] / D, written
exactly as the spec states it (with D = A - B*B/C). This definition is
the comparison point for the refinement claim about the two-term form. -/
def specMarkowitzWeights (sigmaInv : Matrix (Fin n) (Fin n) K)
    (mu u : Matrix (Fin n) (Fin 1) K) (tau : K) : Matrix (Fin n) (Fin 1) K :=
  (1 / markD sigmaInv mu u) •
    ((markA sigmaInv mu - markB sigmaInv mu u * tau) • (sigmaInv * u)
      + (markC sigmaInv u * tau - markB sigmaInv mu u) • (sigmaInv * mu))

/-- Concrete mean vector used to evaluate the solver at a well-conditioned
input (with sigma the 2 by 2 identity, A = 5, B = 3, C = 2, D = 1/2). -/
def cexMu : Matrix (Fin 2) (Fin 1) ℚ := !![1; 2]

/-- Concrete unit vector for the same evaluation. -/
def cexU : Matrix (Fin 2) (Fin 1) ℚ := !![1; 1]

end MarkowitzSolver

namespace TransactionCostModel

/-- Cost parameters, from TransactionCostModel.hpp lines 9-14. -/
structure Costs (K : Type) where
  fixedCommission : K
  variableCommission : K
  slippageModel : K
  marketImpact : K

variable {m : ℕ} {K : Type} [LinearOrderedField K]

/-- One-way turnover, from TransactionCostModel.cpp lines 68-77:
half the sum of absolute componentwise weight differences. -/
def calculateTurnover (oldWeights newWeights : Matrix (Fin m) (Fin 1) K) : K :=
  (∑ i, |newWeights i 0 - oldWeights i 0|) / 2

/-- Slippage estimate, from TransactionCostModel.cpp lines 87-93:
zero when avgVolume <= 0, otherwise slippageModel * (tradeSize/avgVolume). -/
def estimateSlippage (costs : Costs K) (tradeSize avgVolume : K) : K :=
  if avgVolume ≤ 0 then 0 else costs.slippageModel * (tradeSize / avgVolume)

/-- Concrete cost parameters with slippage coefficient 1, used to
evaluate the slippage model. -/
def cexCosts : Costs ℚ :=
  { fixedCommission := 0
    variableCommission := 0
    slippageModel := 1
    marketImpact := 0 }

/-- Concrete cost parameters with slippage coefficient 2, used to
evaluate the slippage model on a second input. -/
def cexCostsTwo : Costs ℚ :=
  { fixedCommission := 0
    variableCommission := 0
    slippageModel := 2
    marketImpact := 0 }

/-- Concrete real-valued cost parameters with slippage coefficient 1,
used to compare the slippage model against the square-root form. -/
def slippageCostsR : Costs ℝ :=
  { fixedCommission := 0
    variableCommission := 0
    slippageModel := 1
    marketImpact := 0 }

end TransactionCostModel

namespace PortfolioRebalancer

/-- Substring of a date kept by updateRebalancingDates, from part_003
line 7: date.substr(0, date.find_last_of(slash)). Everything strictly
before the last slash is kept; a string without a slash is kept whole
(the npos case of substr). Dates are modelled as lists of characters. -/
def dropAfterLastSlash : List Char → List Char
  | [] => []
  | c :: cs =>
    if '/' ∈ cs then c :: dropAfterLastSlash cs
    else if c = '/' then []
    else c :: cs

/-- Loop of PortfolioRebalancer::updateRebalancingDates, from part_003
lines 3-13: scan the date column in order, keep a running currentMonth
string (initially empty) and emit a date whenever its extracted
substring differs from currentMonth. -/
def updateRebalancingDatesGo (currentMonth : List Char) :
    List (List Char) → List (List Char)
  | [] => []
  | date :: rest =>
    let month := dropAfterLastSlash date
    if month ≠ currentMonth then date :: updateRebalancingDatesGo month rest
    else updateRebalancingDatesGo currentMonth rest

/-- Rebalance calendar built by PortfolioRebalancer::updateRebalancingDates
(part_003 lines 3-13), starting from the empty currentMonth. -/
def updateRebalancingDates (allDates : List (List Char)) : List (List Char) :=
  updateRebalancingDatesGo [] allDates

variable {m : ℕ} {K : Type} [LinearOrderedField K]

/-- One-way turnover of the rebalancer, from part_003 lines 15-22. -/
def calculateTurnover (oldWeights newWeights : Matrix (Fin m) (Fin 1) K) : K :=
  (∑ i, |newWeights i 0 - oldWeights i 0|) / 2

/-- State held by PortfolioRebalancer (part_006): current weights, the
rebalance calendar and the period counter. -/
structure RebalancerState (m : ℕ) (K : Type) where
  currentWeights : Matrix (Fin m) (Fin 1) K
  rebalanceDates : List (List Char)
  currentPeriod : ℕ

/-- PortfolioRebalancer::rebalance, from part_003 lines 24-48. The
collaborators that are not part of the sources (the optimiser call
producing the new optimal weights and its expected excess return, and
the cost model call) enter as parameters newWeights, expectedExcessReturn
and calculateCosts; the control flow is the one of the source: no-op
off the calendar, otherwise compute turnover and cost and swap in the
new weights exactly when cost < expected excess return, always
advancing the period counter. -/
def rebalance (newWeights : Matrix (Fin m) (Fin 1) K) (calculateCosts : K → K)
    (expectedExcessReturn : K) (st : RebalancerState m K)
    (currentDate : List Char) : RebalancerState m K :=
  if currentDate ∈ st.rebalanceDates then
    let oldWeights := st.currentWeights
    let turnover := calculateTurnover oldWeights newWeights
    let transactionCosts := calculateCosts turnover
    { currentWeights :=
        if transactionCosts < expectedExcessReturn then newWeights
        else st.currentWeights,
      rebalanceDates := st.rebalanceDates,
      currentPeriod := st.currentPeriod + 1 }
  else st

/-- Concrete date 1/2/2015 (a first trading day of a January). -/
def dateJan2 : List Char := ['1', '/', '2', '/', '2', '0', '1', '5']

/-- Concrete date 1/3/2015 (a second trading day in the same month). -/
def dateJan3 : List Char := ['1', '/', '3', '/', '2', '0', '1', '5']

/-- Concrete rebalancer state used to evaluate the acceptance rule. -/
def cexState : RebalancerState 2 ℚ :=
  { currentWeights := !![1/2; 1/2], rebalanceDates := [dateJan2],
    currentPeriod := 0 }

/-- Concrete newly optimised weights for the acceptance evaluation. -/
def cexNewWeights : Matrix (Fin 2) (Fin 1) ℚ := !![3/5; 2/5]

end PortfolioRebalancer

namespace RiskMetrics

variable {N T : ℕ}

/-- RiskMetrics::calculatePortfolioReturns, from part_005 lines 376-392:
the series of daily portfolio returns sum_j weights[j][0]*returns[i][j]. -/
def calculatePortfolioReturns (weights : Matrix (Fin N) (Fin 1) ℚ)
    (returns : Matrix (Fin T) (Fin N) ℚ) : List ℚ :=
  List.ofFn fun t : Fin T => ∑ j, weights j 0 * returns t j

/-- RiskMetrics::calculateValueAtRisk, from part_005 lines 224-239: sort
the portfolio return series ascending, take the index
(1 - confidenceLevel) * size truncated to an integer, and return the
negation of the element there. The C++ vector access sortedReturns[index]
is undefined when the index reaches the size; that failing read is
modelled as none. -/
def calculateValueAtRisk (weights : Matrix (Fin N) (Fin 1) ℚ)
    (returns : Matrix (Fin T) (Fin N) ℚ) (confidenceLevel : ℚ) : Option ℚ :=
  let portfolioReturns :=
    (calculatePortfolioReturns weights returns).mergeSort fun a b => decide (a ≤ b)
  let index := ((1 - confidenceLevel) * (portfolioReturns.length : ℚ)).floor.toNat
  if h : index < portfolioReturns.length then
    some (-(portfolioReturns.get ⟨index, h⟩))
  else none

end RiskMetrics

namespace RiskConstraints

/-- Constraint limits, from RiskConstraints.hpp lines 13-43. -/
structure ConstraintLimits where
  maxPositionSize : ℝ
  minPositionSize : ℝ
  maxShortPosition : ℝ
  maxSectorExposure : ℝ
  maxFactorExposure : ℝ
  maxBetaDeviation : ℝ
  maxVolatility : ℝ
  maxTrackingError : ℝ
  minSharpeRatio : ℝ
  maxTurnover : ℝ
  minTradeSize : ℝ
  maxTradeSize : ℝ
  minLiquidity : ℝ
  maxADVPercent : ℝ
  minPositions : ℕ
  maxPositions : ℕ

variable {n T : ℕ} {S : Type} [DecidableEq S]

/-- Portfolio volatility sqrt(w^T Sigma w), the quantity computed inline
at RiskConstraints.cpp lines 117 and 285. -/
noncomputable def portfolioVolatility (covariance : Matrix (Fin n) (Fin n) ℝ)
    (weights : Matrix (Fin n) (Fin 1) ℝ) : ℝ :=
  Real.sqrt ((weights.transpose * covariance * weights) 0 0)

/-- Total short exposure, from RiskConstraints.cpp lines 311-319. -/
noncomputable def calculateTotalShortExposure
    (weights : Matrix (Fin n) (Fin 1) ℝ) : ℝ :=
  ∑ i, if weights i 0 < 0 then |weights i 0| else 0

/-- Exposure of one sector, from RiskConstraints.cpp lines 321-333: the
sum of the weights of the assets mapped to that sector. -/
def calculateSectorExposures (weights : Matrix (Fin n) (Fin 1) ℝ)
    (sectorMap : Fin n → S) (s : S) : ℝ :=
  ∑ i, if sectorMap i = s then weights i 0 else 0

/-- Count of the positions larger than the minimum trade size, from
RiskConstraints.cpp lines 346-354. -/
noncomputable def countActivePositions (limits : ConstraintLimits)
    (weights : Matrix (Fin n) (Fin 1) ℝ) : ℕ :=
  (Finset.univ.filter fun i => limits.minTradeSize < |weights i 0|).card

/-- Position limit check, from RiskConstraints.cpp lines 68-90: every
component within [minPositionSize, maxPositionSize] and the total short
exposure within maxShortPosition. -/
def checkPositionLimits (limits : ConstraintLimits)
    (weights : Matrix (Fin n) (Fin 1) ℝ) : Prop :=
  (∀ i, weights i 0 ≤ limits.maxPositionSize
    ∧ limits.minPositionSize ≤ weights i 0)
  ∧ calculateTotalShortExposure weights ≤ limits.maxShortPosition

/-- Sector exposure check, from RiskConstraints.cpp lines 92-110: every
sector that occurs in the map has absolute exposure within the cap. -/
def checkSectorExposure (limits : ConstraintLimits)
    (weights : Matrix (Fin n) (Fin 1) ℝ) (sectorMap : Fin n → S) : Prop :=
  ∀ i, |calculateSectorExposures weights sectorMap (sectorMap i)|
    ≤ limits.maxSectorExposure

/-- Volatility check, from RiskConstraints.cpp lines 112-123. -/
def checkVolatilityLimit (limits : ConstraintLimits)
    (weights : Matrix (Fin n) (Fin 1) ℝ)
    (covariance : Matrix (Fin n) (Fin n) ℝ) : Prop :=
  portfolioVolatility covariance weights ≤ limits.maxVolatility

/-- Beta deviation check, from RiskConstraints.cpp lines 180-201: the
uncentred regression coefficient of the portfolio return series on the
benchmark series stays within maxBetaDeviation of one. -/
def checkBetaDeviation (limits : ConstraintLimits)
    (weights : Matrix (Fin n) (Fin 1) ℝ) (returns : Matrix (Fin T) (Fin n) ℝ)
    (benchmarkReturns : Matrix (Fin T) (Fin 1) ℝ) : Prop :=
  |(∑ t, (returns * weights) t 0 * benchmarkReturns t 0)
      / (∑ t, benchmarkReturns t 0 * benchmarkReturns t 0) - 1|
    ≤ limits.maxBetaDeviation

/-- One-way turnover, from RiskConstraints.cpp lines 335-344. -/
noncomputable def calculatePortfolioTurnover
    (oldWeights newWeights : Matrix (Fin n) (Fin 1) ℝ) : ℝ :=
  (∑ i, |newWeights i 0 - oldWeights i 0|) / 2

/-- Turnover check, from RiskConstraints.cpp lines 138-149. -/
def checkTurnover (limits : ConstraintLimits)
    (oldWeights newWeights : Matrix (Fin n) (Fin 1) ℝ) : Prop :=
  calculatePortfolioTurnover oldWeights newWeights ≤ limits.maxTurnover

/-- Liquidity check, from RiskConstraints.cpp lines 151-167: the notional
of every position stays within the configured fraction of the average
daily volume. -/
def checkLiquidity (limits : ConstraintLimits)
    (weights : Matrix (Fin n) (Fin 1) ℝ) (adv : Fin n → ℝ) : Prop :=
  ∀ i, |weights i 0| * limits.minLiquidity ≤ adv i * limits.maxADVPercent

/-- Diversification check, from RiskConstraints.cpp lines 169-178. -/
def checkDiversification (limits : ConstraintLimits)
    (weights : Matrix (Fin n) (Fin 1) ℝ) : Prop :=
  limits.minPositions ≤ countActivePositions limits weights
  ∧ countActivePositions limits weights ≤ limits.maxPositions

/-- Conjunction of all the predicates checked by checkAllConstraints,
from RiskConstraints.cpp lines 10-66 (the risk-limit flag is the
conjunction of the volatility and beta checks, exactly as at lines
36-37; allConstraintsMet of the returned status record is the
conjunction of the six flags). -/
def checkAllConstraints (limits : ConstraintLimits)
    (proposedWeights currentWeights : Matrix (Fin n) (Fin 1) ℝ)
    (returns : Matrix (Fin T) (Fin n) ℝ) (covariance : Matrix (Fin n) (Fin n) ℝ)
    (benchmarkReturns : Matrix (Fin T) (Fin 1) ℝ) (sectorMap : Fin n → S)
    (adv : Fin n → ℝ) : Prop :=
  checkPositionLimits limits proposedWeights
  ∧ checkSectorExposure limits proposedWeights sectorMap
  ∧ (checkVolatilityLimit limits proposedWeights covariance
      ∧ checkBetaDeviation limits proposedWeights returns benchmarkReturns)
  ∧ checkTurnover limits currentWeights proposedWeights
  ∧ checkLiquidity limits proposedWeights adv
  ∧ checkDiversification limits proposedWeights

/-- Position clipping pass, from RiskConstraints.cpp lines 251-257. -/
noncomputable def adjustPositionSizes (limits : ConstraintLimits)
    (weights : Matrix (Fin n) (Fin 1) ℝ) : Matrix (Fin n) (Fin 1) ℝ :=
  Matrix.of fun i j =>
    max limits.minPositionSize (min limits.maxPositionSize (weights i j))

/-- Sector scaling pass, from RiskConstraints.cpp lines 259-279: the
exposures are computed once from the incoming weights and every asset
in an overexposed sector is scaled by cap/|exposure|. -/
noncomputable def adjustSectorExposures (limits : ConstraintLimits)
    (weights : Matrix (Fin n) (Fin 1) ℝ) (sectorMap : Fin n → S) :
    Matrix (Fin n) (Fin 1) ℝ :=
  Matrix.of fun i j =>
    if limits.maxSectorExposure
        < |calculateSectorExposures weights sectorMap (sectorMap i)| then
      limits.maxSectorExposure
        / |calculateSectorExposures weights sectorMap (sectorMap i)| * weights i j
    else weights i j

/-- Volatility scaling pass, from RiskConstraints.cpp lines 281-295. -/
noncomputable def adjustForVolatility (limits : ConstraintLimits)
    (weights : Matrix (Fin n) (Fin 1) ℝ)
    (covariance : Matrix (Fin n) (Fin n) ℝ) : Matrix (Fin n) (Fin 1) ℝ :=
  if limits.maxVolatility < portfolioVolatility covariance weights then
    (limits.maxVolatility / portfolioVolatility covariance weights) • weights
  else weights

/-- Liquidity clipping pass, from RiskConstraints.cpp lines 297-309. -/
noncomputable def adjustForLiquidity (limits : ConstraintLimits)
    (weights : Matrix (Fin n) (Fin 1) ℝ) (adv : Fin n → ℝ) :
    Matrix (Fin n) (Fin 1) ℝ :=
  Matrix.of fun i j =>
    if adv i * limits.maxADVPercent / limits.minLiquidity < |weights i j| then
      if 0 < weights i j then adv i * limits.maxADVPercent / limits.minLiquidity
      else -(adv i * limits.maxADVPercent / limits.minLiquidity)
    else weights i j

/-- One iteration of the enforcement loop body, from RiskConstraints.cpp
lines 217-229: the four adjustment passes in source order. -/
noncomputable def adjustmentPass (limits : ConstraintLimits)
    (sectorMap : Fin n → S) (covariance : Matrix (Fin n) (Fin n) ℝ)
    (adv : Fin n → ℝ) (weights : Matrix (Fin n) (Fin 1) ℝ) :
    Matrix (Fin n) (Fin 1) ℝ :=
  adjustForLiquidity limits
    (adjustForVolatility limits
      (adjustSectorExposures limits (adjustPositionSizes limits weights) sectorMap)
      covariance)
    adv

/-- Fuel-indexed enforcement loop of RiskConstraints.cpp lines 213-238:
each iteration adjusts and then re-checks; success returns the adjusted
vector, exhaustion of the fuel models the ConstraintsUnsatisfiable
exception thrown at line 241 and is none. -/
noncomputable def enforceConstraintsAux (limits : ConstraintLimits)
    (currentWeights : Matrix (Fin n) (Fin 1) ℝ)
    (returns : Matrix (Fin T) (Fin n) ℝ) (covariance : Matrix (Fin n) (Fin n) ℝ)
    (benchmarkReturns : Matrix (Fin T) (Fin 1) ℝ) (sectorMap : Fin n → S)
    (adv : Fin n → ℝ) : ℕ → Matrix (Fin n) (Fin 1) ℝ →
    Option (Matrix (Fin n) (Fin 1) ℝ)
  | 0, _ => none
  | fuel + 1, proposedWeights =>
    let adjusted := adjustmentPass limits sectorMap covariance adv proposedWeights
    letI : Decidable (checkAllConstraints limits adjusted currentWeights returns
      covariance benchmarkReturns sectorMap adv) := Classical.propDecidable _
    if checkAllConstraints limits adjusted currentWeights returns covariance
        benchmarkReturns sectorMap adv then
      some adjusted
    else
      enforceConstraintsAux limits currentWeights returns covariance
        benchmarkReturns sectorMap adv fuel adjusted

/-- RiskConstraints::enforceConstraints, from RiskConstraints.cpp lines
203-249, with the source iteration cap maxIterations = 100. -/
noncomputable def enforceConstraints (limits : ConstraintLimits)
    (proposedWeights currentWeights : Matrix (Fin n) (Fin 1) ℝ)
    (returns : Matrix (Fin T) (Fin n) ℝ) (covariance : Matrix (Fin n) (Fin n) ℝ)
    (benchmarkReturns : Matrix (Fin T) (Fin 1) ℝ) (sectorMap : Fin n → S)
    (adv : Fin n → ℝ) : Option (Matrix (Fin n) (Fin 1) ℝ) :=
  enforceConstraintsAux limits currentWeights returns covariance
    benchmarkReturns sectorMap adv 100 proposedWeights

/-- Concrete permissive limits used to evaluate the projector on a
one-asset portfolio. -/
noncomputable def cexLimits : ConstraintLimits :=
  { maxPositionSize := 1
    minPositionSize := -1
    maxShortPosition := 1
    maxSectorExposure := 1
    maxFactorExposure := 1
    maxBetaDeviation := 1
    maxVolatility := 1
    maxTrackingError := 1
    minSharpeRatio := 0
    maxTurnover := 1
    minTradeSize := 1/1000
    maxTradeSize := 1
    minLiquidity := 1
    maxADVPercent := 1
    minPositions := 0
    maxPositions := 5 }

/-- Concrete proposed (and current) one-asset weight vector with sum 1/2. -/
noncomputable def cexRCW : Matrix (Fin 1) (Fin 1) ℝ := !![1/2]

/-- Concrete one-period return matrix for the projector evaluation. -/
noncomputable def cexRet : Matrix (Fin 1) (Fin 1) ℝ := !![1]

/-- Concrete covariance for the projector evaluation. -/
noncomputable def cexCov : Matrix (Fin 1) (Fin 1) ℝ := !![0]

/-- Concrete benchmark series for the projector evaluation. -/
noncomputable def cexBench : Matrix (Fin 1) (Fin 1) ℝ := !![1]

/-- Concrete average daily volume for the projector evaluation. -/
def cexAdv : Fin 1 → ℝ := fun _ => 10

/-- Concrete sector map for the projector evaluation. -/
def cexSectorMap : Fin 1 → ℕ := fun _ => 0

/-- Concrete one-asset weight vector with portfolio volatility 2. -/
noncomputable def volW : Matrix (Fin 1) (Fin 1) ℝ := !![1]

/-- Concrete covariance giving volW the portfolio volatility 2. -/
noncomputable def volCov : Matrix (Fin 1) (Fin 1) ℝ := !![4]

end RiskConstraints

namespace MarkowitzSolver

variable {n : ℕ} {K : Type} [Field K]

/-- Helper: the second two-term coefficient (tau*B - B*B/C)/B equals
(C*tau - B)/C once B and C are nonzero. -/
theorem coeff_two_rewrite (B C tau : K) (hB : B ≠ 0) (hC : C ≠ 0) :
    (tau * B - B * B / C) / B = (C * tau - B) / C := by
  field_simp
  ring

/-- Helper: entries of a 1 by 1 product u^T X mu flip to mu^T X u when X
is symmetric. -/
theorem cross_entry_symm (X : Matrix (Fin n) (Fin n) K)
    (hX : X.IsSymm) (mu u : Matrix (Fin n) (Fin 1) K) :
    (u.transpose * X * mu) 0 0 = (mu.transpose * X * u) 0 0 := by
  have h : (u.transpose * X * mu).transpose = mu.transpose * X * u := by
    rw [Matrix.transpose_mul, Matrix.transpose_mul, Matrix.transpose_transpose,
      hX.eq, ← Matrix.mul_assoc]
  calc (u.transpose * X * mu) 0 0
      = (u.transpose * X * mu).transpose 0 0 := rfl
    _ = (mu.transpose * X * u) 0 0 := by rw [h]

/-- Helper: scalar identity behind the target-return constraint. -/
theorem markowitz_scalar_mu (a b c tau : K) (hB : b ≠ 0) (hC : c ≠ 0)
    (hD : a - b * b / c ≠ 0) :
    (a - b * tau) / c / (a - b * b / c) * b
      + (tau * b - b * b / c) / b / (a - b * b / c) * a = tau := by
  have h2 : a * c - b * b ≠ 0 := fun h => hD (by field_simp; linear_combination h)
  field_simp
  ring

/-- Helper: scalar identity behind the full-investment constraint. -/
theorem markowitz_scalar_u (a b c tau : K) (hB : b ≠ 0) (hC : c ≠ 0)
    (hD : a - b * b / c ≠ 0) :
    (a - b * tau) / c / (a - b * b / c) * c
      + (tau * b - b * b / c) / b / (a - b * b / c) * b = 1 := by
  have h2 : a * c - b * b ≠ 0 := fun h => hD (by field_simp; linear_combination h)
  field_simp
  ring

/-- C1 counterexample: at the well-conditioned input sigma = identity,
mu = (1,2), u = (1,1), tau = 0 (so A = 5, B = 3, C = 2, D = 1/2), the
two-term formula of the source yields (2,-1) while the single-term
closed form written in the spec yields (4,-2): the two expressions are
not the same weight vector. -/
theorem calculateMarkowitzWeights_ne_spec :
    calculateMarkowitzWeights (1 : Matrix (Fin 2) (Fin 2) ℚ) cexMu cexU 0
      ≠ specMarkowitzWeights (1 : Matrix (Fin 2) (Fin 2) ℚ) cexMu cexU 0 := by
  intro h
  have h0 := congrFun (congrFun h 0) 0
  simp only [calculateMarkowitzWeights, specMarkowitzWeights, markA, markB, markC,
    markD, cexMu, cexU, Matrix.mul_one, Matrix.one_mul, Matrix.add_apply,
    Matrix.smul_apply, smul_eq_mul, Matrix.mul_apply, Fin.sum_univ_two,
    Matrix.transpose_apply] at h0
  norm_num at h0

/-- C1 (amended): the two-term Markowitz formula of the source equals the
single-term closed form of the spec divided by the extra factor C (that
is, with its denominator D replaced by C*D = A*C - B*B); the two agree
exactly when C = 1. Hypotheses: C, B and D nonzero. -/
theorem calculateMarkowitzWeights_eq_invC_smul_spec
    (sigmaInv : Matrix (Fin n) (Fin n) K) (mu u : Matrix (Fin n) (Fin 1) K)
    (tau : K) (hC : markC sigmaInv u ≠ 0) (hB : markB sigmaInv mu u ≠ 0)
    (hD : markD sigmaInv mu u ≠ 0) :
    calculateMarkowitzWeights sigmaInv mu u tau
      = (markC sigmaInv u)⁻¹ • specMarkowitzWeights sigmaInv mu u tau := by
  rw [calculateMarkowitzWeights, specMarkowitzWeights,
    coeff_two_rewrite (markB sigmaInv mu u) (markC sigmaInv u) tau hB hC]
  simp only [smul_add, smul_smul]
  congr 1 <;>
  · congr 1
    simp only [div_eq_mul_inv, one_div, mul_inv_rev]
    ring

/-- C1 witness: the amended equivalence evaluated at the counterexample
input with tau = 0, where C = 2, B = 3 and D = 1/2 are all nonzero. -/
theorem calculateMarkowitzWeights_eq_invC_smul_spec_witness :
    (markC (1 : Matrix (Fin 2) (Fin 2) ℚ) cexU ≠ 0
      ∧ markB (1 : Matrix (Fin 2) (Fin 2) ℚ) cexMu cexU ≠ 0
      ∧ markD (1 : Matrix (Fin 2) (Fin 2) ℚ) cexMu cexU ≠ 0)
    ∧ calculateMarkowitzWeights (1 : Matrix (Fin 2) (Fin 2) ℚ) cexMu cexU 0
      = (markC (1 : Matrix (Fin 2) (Fin 2) ℚ) cexU)⁻¹
        • specMarkowitzWeights (1 : Matrix (Fin 2) (Fin 2) ℚ) cexMu cexU 0 := by
  have hC : markC (1 : Matrix (Fin 2) (Fin 2) ℚ) cexU ≠ 0 := by
    simp only [markC, cexU, Matrix.mul_one, Matrix.mul_apply, Fin.sum_univ_two,
      Matrix.transpose_apply]
    norm_num
  have hB : markB (1 : Matrix (Fin 2) (Fin 2) ℚ) cexMu cexU ≠ 0 := by
    simp only [markB, cexMu, cexU, Matrix.mul_one, Matrix.mul_apply,
      Fin.sum_univ_two, Matrix.transpose_apply]
    norm_num
  have hD : markD (1 : Matrix (Fin 2) (Fin 2) ℚ) cexMu cexU ≠ 0 := by
    simp only [markD, markA, markB, markC, cexMu, cexU, Matrix.mul_one,
      Matrix.mul_apply, Fin.sum_univ_two, Matrix.transpose_apply]
    norm_num
  exact ⟨⟨hC, hB, hD⟩,
    calculateMarkowitzWeights_eq_invC_smul_spec 1 cexMu cexU 0 hC hB hD⟩

/-- C2: for every symmetric invertible covariance sigma and every mean
vector mu, unit vector u and target tau with the scalars B, C and D
nonzero, the weight vector returned by calculateMarkowitzWeights (fed
with inverse(sigma)) satisfies both solver constraints mu^T w = tau and
u^T w = 1 exactly (hence within the 1e-8 tolerance of the spec). -/
theorem calculateMarkowitzWeights_constraints
    (sigma : Matrix (Fin n) (Fin n) K) (mu u : Matrix (Fin n) (Fin 1) K) (tau : K)
    (hsym : sigma.IsSymm) (hdet : IsUnit sigma.det)
    (hB : markB sigma⁻¹ mu u ≠ 0) (hC : markC sigma⁻¹ u ≠ 0)
    (hD : markD sigma⁻¹ mu u ≠ 0) :
    (mu.transpose * calculateMarkowitzWeights sigma⁻¹ mu u tau) 0 0 = tau
      ∧ (u.transpose * calculateMarkowitzWeights sigma⁻¹ mu u tau) 0 0 = 1 := by
  have hXsym : (sigma⁻¹).IsSymm := by
    rw [Matrix.IsSymm, Matrix.transpose_nonsing_inv, hsym.eq]
  have hcross := cross_entry_symm (sigma⁻¹) hXsym mu u
  simp only [markA, markB, markC, markD] at hB hC hD
  constructor
  · rw [calculateMarkowitzWeights, Matrix.mul_add, Matrix.mul_smul, Matrix.mul_smul,
      Matrix.add_apply, Matrix.smul_apply, Matrix.smul_apply, smul_eq_mul,
      smul_eq_mul, ← Matrix.mul_assoc, ← Matrix.mul_assoc]
    simp only [markA, markB, markC, markD]
    exact markowitz_scalar_mu _ _ _ tau hB hC hD
  · rw [calculateMarkowitzWeights, Matrix.mul_add, Matrix.mul_smul, Matrix.mul_smul,
      Matrix.add_apply, Matrix.smul_apply, Matrix.smul_apply, smul_eq_mul,
      smul_eq_mul, ← Matrix.mul_assoc, ← Matrix.mul_assoc]
    simp only [markA, markB, markC, markD]
    rw [hcross]
    exact markowitz_scalar_u _ _ _ tau hB hC hD

/-- C2 witness: constraints evaluated with sigma the 2 by 2 rational
identity, mu = (1,2), u = (1,1) and tau = 1. -/
theorem calculateMarkowitzWeights_constraints_witness :
    (markB (1 : Matrix (Fin 2) (Fin 2) ℚ)⁻¹ cexMu cexU ≠ 0
      ∧ markC (1 : Matrix (Fin 2) (Fin 2) ℚ)⁻¹ cexU ≠ 0
      ∧ markD (1 : Matrix (Fin 2) (Fin 2) ℚ)⁻¹ cexMu cexU ≠ 0)
    ∧ (cexMu.transpose
        * calculateMarkowitzWeights (1 : Matrix (Fin 2) (Fin 2) ℚ)⁻¹ cexMu cexU 1) 0 0 = 1
    ∧ (cexU.transpose
        * calculateMarkowitzWeights (1 : Matrix (Fin 2) (Fin 2) ℚ)⁻¹ cexMu cexU 1) 0 0 = 1 := by
  have hB : markB (1 : Matrix (Fin 2) (Fin 2) ℚ)⁻¹ cexMu cexU ≠ 0 := by
    rw [inv_one]
    simp only [markB, cexMu, cexU, Matrix.mul_one, Matrix.mul_apply,
      Fin.sum_univ_two, Matrix.transpose_apply]
    norm_num
  have hC : markC (1 : Matrix (Fin 2) (Fin 2) ℚ)⁻¹ cexU ≠ 0 := by
    rw [inv_one]
    simp only [markC, cexU, Matrix.mul_one, Matrix.mul_apply, Fin.sum_univ_two,
      Matrix.transpose_apply]
    norm_num
  have hD : markD (1 : Matrix (Fin 2) (Fin 2) ℚ)⁻¹ cexMu cexU ≠ 0 := by
    rw [inv_one]
    simp only [markD, markA, markB, markC, cexMu, cexU, Matrix.mul_one,
      Matrix.mul_apply, Fin.sum_univ_two, Matrix.transpose_apply]
    norm_num
  have h := calculateMarkowitzWeights_constraints (1 : Matrix (Fin 2) (Fin 2) ℚ)
    cexMu cexU 1 Matrix.isSymm_one (by simp) hB hC hD
  exact ⟨⟨hB, hC, hD⟩, h.1, h.2⟩

end MarkowitzSolver

namespace TransactionCostModel

/-- C6 counterexample: at trade notional 4 and average daily volume 1
(both positive) with slippage coefficient 1, the source computes
slippage 1 * (4/1) = 4, while slippageCoeff * sqrt(4/1) = 2: the
slippage term is not the square-root form stated in the spec. -/
theorem estimateSlippage_ne_sqrt_form :
    (0 : ℝ) < 4 ∧ (0 : ℝ) < 1
      ∧ estimateSlippage slippageCostsR 4 1
        ≠ slippageCostsR.slippageModel * Real.sqrt (4 / 1) := by
  refine ⟨by norm_num, by norm_num, ?_⟩
  rw [estimateSlippage, if_neg (by norm_num)]
  rw [show Real.sqrt (4 / 1) = 2 by
    rw [show (4 / 1 : ℝ) = 2 ^ 2 by norm_num]
    exact Real.sqrt_sq (by norm_num)]
  simp only [slippageCostsR]
  norm_num

/-- C6 (amended): for every positive average daily volume (and any trade
notional) the slippage term computed by estimateSlippage equals
slippageCoeff multiplied by the ratio tradeSize/avgVolume, the linear
rather than square-root law. -/
theorem estimateSlippage_linear {K : Type} [LinearOrderedField K]
    (costs : Costs K) (tradeSize avgVolume : K) (hv : 0 < avgVolume) :
    estimateSlippage costs tradeSize avgVolume
      = costs.slippageModel * (tradeSize / avgVolume) := by
  rw [estimateSlippage, if_neg (not_le.mpr hv)]

/-- C6 witness: the linear slippage law evaluated at coefficient 2,
trade notional 6 and average daily volume 3. -/
theorem estimateSlippage_linear_witness :
    (0 : ℚ) < 3
      ∧ estimateSlippage cexCostsTwo 6 3 = cexCostsTwo.slippageModel * (6 / 3) :=
  ⟨by norm_num, estimateSlippage_linear cexCostsTwo 6 3 (by norm_num)⟩

end TransactionCostModel

namespace PortfolioRebalancer

/-- C4: on the chronologically ordered, well-formed M/D/YYYY column
[1/2/2015, 1/3/2015] the calendar built by updateRebalancingDates
contains both dates, because the compared substring runs up to the last
slash and therefore contains the day; the first trading day of the only
month present is 1/2/2015 alone. -/
theorem updateRebalancingDates_daily_emission :
    updateRebalancingDates [dateJan2, dateJan3] = [dateJan2, dateJan3] := by
  decide

/-- C7: on a rebalance-calendar date, rebalance installs the newly
optimised weights exactly when the estimated transaction cost is
strictly below the expected excess return, and otherwise leaves the
current weights unchanged. -/
theorem rebalance_acceptance {m : ℕ} {K : Type} [LinearOrderedField K]
    (newWeights : Matrix (Fin m) (Fin 1) K) (calculateCosts : K → K)
    (expectedExcessReturn : K) (st : RebalancerState m K)
    (currentDate : List Char) (hd : currentDate ∈ st.rebalanceDates) :
    (calculateCosts (calculateTurnover st.currentWeights newWeights)
        < expectedExcessReturn →
      (rebalance newWeights calculateCosts expectedExcessReturn st
        currentDate).currentWeights = newWeights)
    ∧ (¬ calculateCosts (calculateTurnover st.currentWeights newWeights)
        < expectedExcessReturn →
      (rebalance newWeights calculateCosts expectedExcessReturn st
        currentDate).currentWeights = st.currentWeights) := by
  constructor <;> intro hc <;> simp [rebalance, hd, hc]

/-- C7 witness: with expected excess return 0.0010, a cost estimate of
0.0005 makes the weights swap and a cost estimate of 0.0020 leaves them
unchanged, on the calendar date 1/2/2015. -/
theorem rebalance_acceptance_witness :
    dateJan2 ∈ cexState.rebalanceDates
    ∧ (rebalance cexNewWeights (fun _ => 5/10000) (10/10000 : ℚ) cexState
        dateJan2).currentWeights = cexNewWeights
    ∧ (rebalance cexNewWeights (fun _ => 20/10000) (10/10000 : ℚ) cexState
        dateJan2).currentWeights = cexState.currentWeights := by
  have hd : dateJan2 ∈ cexState.rebalanceDates := by
    simp [cexState]
  refine ⟨hd, ?_, ?_⟩
  · exact (rebalance_acceptance cexNewWeights (fun _ => 5/10000) (10/10000 : ℚ)
      cexState dateJan2 hd).1 (by norm_num)
  · exact (rebalance_acceptance cexNewWeights (fun _ => 20/10000) (10/10000 : ℚ)
      cexState dateJan2 hd).2 (by norm_num)

end PortfolioRebalancer

namespace RiskMetrics

/-- Concrete one-element weight vector for the value-at-risk evaluation. -/
def cexVarWeights : Matrix (Fin 1) (Fin 1) ℚ := !![1]

/-- Concrete one-period return matrix for the value-at-risk evaluation. -/
def cexVarReturns : Matrix (Fin 1) (Fin 1) ℚ := !![1/20]

/-- C8: at confidence level 0 on a one-observation series the index
computed by calculateValueAtRisk is (1-0)*1 = 1, which is out of bounds
for the sorted one-element vector: the read past the end is modelled as
none, against the claim that the index is valid and the result is the
negation of the best observation. -/
theorem calculateValueAtRisk_alpha_zero_out_of_bounds :
    calculateValueAtRisk cexVarWeights cexVarReturns 0 = none := by
  simp [calculateValueAtRisk, calculatePortfolioReturns, cexVarWeights,
    cexVarReturns, List.ofFn_succ, Fin.sum_univ_one]
  decide

end RiskMetrics

namespace RiskConstraints

variable {n T : ℕ} {S : Type} [DecidableEq S]

/-- Helper: equation of the enforcement loop at fuel zero. -/
theorem enforceConstraintsAux_zero (limits : ConstraintLimits)
    (currentWeights : Matrix (Fin n) (Fin 1) ℝ)
    (returns : Matrix (Fin T) (Fin n) ℝ) (covariance : Matrix (Fin n) (Fin n) ℝ)
    (benchmarkReturns : Matrix (Fin T) (Fin 1) ℝ) (sectorMap : Fin n → S)
    (adv : Fin n → ℝ) (w : Matrix (Fin n) (Fin 1) ℝ) :
    enforceConstraintsAux limits currentWeights returns covariance
      benchmarkReturns sectorMap adv 0 w = none := rfl

/-- Helper: equation of the enforcement loop when the adjusted vector
passes all checks. -/
theorem enforceConstraintsAux_succ_pos (limits : ConstraintLimits)
    (currentWeights : Matrix (Fin n) (Fin 1) ℝ)
    (returns : Matrix (Fin T) (Fin n) ℝ) (covariance : Matrix (Fin n) (Fin n) ℝ)
    (benchmarkReturns : Matrix (Fin T) (Fin 1) ℝ) (sectorMap : Fin n → S)
    (adv : Fin n → ℝ) (fuel : ℕ) (w : Matrix (Fin n) (Fin 1) ℝ)
    (h : checkAllConstraints limits
      (adjustmentPass limits sectorMap covariance adv w) currentWeights returns
      covariance benchmarkReturns sectorMap adv) :
    enforceConstraintsAux limits currentWeights returns covariance
      benchmarkReturns sectorMap adv (fuel + 1) w
      = some (adjustmentPass limits sectorMap covariance adv w) := by
  simp only [enforceConstraintsAux]
  rw [if_pos h]

/-- Helper: equation of the enforcement loop when the adjusted vector
fails a check. -/
theorem enforceConstraintsAux_succ_neg (limits : ConstraintLimits)
    (currentWeights : Matrix (Fin n) (Fin 1) ℝ)
    (returns : Matrix (Fin T) (Fin n) ℝ) (covariance : Matrix (Fin n) (Fin n) ℝ)
    (benchmarkReturns : Matrix (Fin T) (Fin 1) ℝ) (sectorMap : Fin n → S)
    (adv : Fin n → ℝ) (fuel : ℕ) (w : Matrix (Fin n) (Fin 1) ℝ)
    (h : ¬ checkAllConstraints limits
      (adjustmentPass limits sectorMap covariance adv w) currentWeights returns
      covariance benchmarkReturns sectorMap adv) :
    enforceConstraintsAux limits currentWeights returns covariance
      benchmarkReturns sectorMap adv (fuel + 1) w
      = enforceConstraintsAux limits currentWeights returns covariance
        benchmarkReturns sectorMap adv fuel
        (adjustmentPass limits sectorMap covariance adv w) := by
  simp only [enforceConstraintsAux]
  rw [if_neg h]

/-- Helper: every vector returned by the enforcement loop passes all the
checks. -/
theorem enforceConstraintsAux_sound (limits : ConstraintLimits)
    (currentWeights : Matrix (Fin n) (Fin 1) ℝ)
    (returns : Matrix (Fin T) (Fin n) ℝ) (covariance : Matrix (Fin n) (Fin n) ℝ)
    (benchmarkReturns : Matrix (Fin T) (Fin 1) ℝ) (sectorMap : Fin n → S)
    (adv : Fin n → ℝ) :
    ∀ (fuel : ℕ) (w w' : Matrix (Fin n) (Fin 1) ℝ),
      enforceConstraintsAux limits currentWeights returns covariance
        benchmarkReturns sectorMap adv fuel w = some w' →
      checkAllConstraints limits w' currentWeights returns covariance
        benchmarkReturns sectorMap adv := by
  intro fuel
  induction fuel with
  | zero =>
    intro w w' h
    rw [enforceConstraintsAux_zero] at h
    exact absurd h (by simp)
  | succ fuel ih =>
    intro w w' h
    by_cases hc : checkAllConstraints limits
      (adjustmentPass limits sectorMap covariance adv w) currentWeights returns
      covariance benchmarkReturns sectorMap adv
    · rw [enforceConstraintsAux_succ_pos _ _ _ _ _ _ _ _ _ hc] at h
      cases h
      exact hc
    · rw [enforceConstraintsAux_succ_neg _ _ _ _ _ _ _ _ _ hc] at h
      exact ih _ _ h

/-- Helper: the enforcement loop either succeeds within its fuel, with a
result that is an iterate of the adjustment pass and passes all checks,
or returns none. -/
theorem enforceConstraintsAux_bounded (limits : ConstraintLimits)
    (currentWeights : Matrix (Fin n) (Fin 1) ℝ)
    (returns : Matrix (Fin T) (Fin n) ℝ) (covariance : Matrix (Fin n) (Fin n) ℝ)
    (benchmarkReturns : Matrix (Fin T) (Fin 1) ℝ) (sectorMap : Fin n → S)
    (adv : Fin n → ℝ) :
    ∀ (fuel : ℕ) (w : Matrix (Fin n) (Fin 1) ℝ),
      (∃ w' k, enforceConstraintsAux limits currentWeights returns covariance
          benchmarkReturns sectorMap adv fuel w = some w'
        ∧ checkAllConstraints limits w' currentWeights returns covariance
            benchmarkReturns sectorMap adv
        ∧ 1 ≤ k ∧ k ≤ fuel
        ∧ w' = (adjustmentPass limits sectorMap covariance adv)^[k] w)
      ∨ enforceConstraintsAux limits currentWeights returns covariance
          benchmarkReturns sectorMap adv fuel w = none := by
  intro fuel
  induction fuel with
  | zero => intro w; right; rfl
  | succ fuel ih =>
    intro w
    by_cases hc : checkAllConstraints limits
      (adjustmentPass limits sectorMap covariance adv w) currentWeights returns
      covariance benchmarkReturns sectorMap adv
    · left
      refine ⟨adjustmentPass limits sectorMap covariance adv w, 1,
        enforceConstraintsAux_succ_pos _ _ _ _ _ _ _ _ _ hc, hc, le_refl 1,
        by omega, ?_⟩
      rw [Function.iterate_one]
    · rcases ih (adjustmentPass limits sectorMap covariance adv w) with
        ⟨w', k, h1, h2, h3, h4, h5⟩ | hnone
      · left
        refine ⟨w', k + 1, ?_, h2, by omega, by omega, ?_⟩
        · rw [enforceConstraintsAux_succ_neg _ _ _ _ _ _ _ _ _ hc]
          exact h1
        · rw [Function.iterate_succ_apply]
          exact h5
      · right
        rw [enforceConstraintsAux_succ_neg _ _ _ _ _ _ _ _ _ hc]
        exact hnone

/-- C5: for every input, enforceConstraints either returns a weight
vector that is an iterate (between 1 and 100 applications) of the
adjustment pass and satisfies every check predicate of
checkAllConstraints, or fails (none, modelling the
ConstraintsUnsatisfiable exception) after the 100-iteration cap; it
never returns an infeasible vector and never iterates beyond the cap. -/
theorem enforceConstraints_feasible_or_unsatisfiable (limits : ConstraintLimits)
    (proposedWeights currentWeights : Matrix (Fin n) (Fin 1) ℝ)
    (returns : Matrix (Fin T) (Fin n) ℝ) (covariance : Matrix (Fin n) (Fin n) ℝ)
    (benchmarkReturns : Matrix (Fin T) (Fin 1) ℝ) (sectorMap : Fin n → S)
    (adv : Fin n → ℝ) :
    (∃ w' k, enforceConstraints limits proposedWeights currentWeights returns
        covariance benchmarkReturns sectorMap adv = some w'
      ∧ checkAllConstraints limits w' currentWeights returns covariance
          benchmarkReturns sectorMap adv
      ∧ 1 ≤ k ∧ k ≤ 100
      ∧ w' = (adjustmentPass limits sectorMap covariance adv)^[k] proposedWeights)
    ∨ enforceConstraints limits proposedWeights currentWeights returns
        covariance benchmarkReturns sectorMap adv = none :=
  enforceConstraintsAux_bounded limits currentWeights returns covariance
    benchmarkReturns sectorMap adv 100 proposedWeights

end RiskConstraints

namespace RiskConstraints

variable {n T : ℕ} {S : Type} [DecidableEq S]

/-- Helper: entries of the concrete one-asset weight vector. -/
theorem cexRCW_apply (i j : Fin 1) : cexRCW i j = 1/2 := by
  simp [cexRCW, Matrix.cons_val_fin_one]

/-- Helper: the position clipping pass leaves the concrete vector alone. -/
theorem cex_pos_pass : adjustPositionSizes cexLimits cexRCW = cexRCW := by
  ext i j
  rw [adjustPositionSizes]
  simp only [Matrix.of_apply, cexRCW_apply, cexLimits]
  norm_num [min_def, max_def]

/-- Helper: the single sector of the concrete input has exposure 1/2. -/
theorem cex_exposures (i : Fin 1) :
    calculateSectorExposures cexRCW cexSectorMap (cexSectorMap i) = 1/2 := by
  rw [calculateSectorExposures]
  simp [cexSectorMap, Fin.sum_univ_one, cexRCW_apply]

/-- Helper: the sector scaling pass leaves the concrete vector alone. -/
theorem cex_sector_pass :
    adjustSectorExposures cexLimits cexRCW cexSectorMap = cexRCW := by
  ext i j
  rw [adjustSectorExposures]
  simp only [Matrix.of_apply, cex_exposures, cexLimits]
  rw [if_neg]
  rw [abs_of_nonneg (by norm_num : (0:ℝ) ≤ 1/2)]
  norm_num

/-- Helper: quadratic form of the concrete vector under the zero
covariance. -/
theorem cex_quad : (cexRCW.transpose * cexCov * cexRCW) 0 0 = 0 := by
  simp [cexRCW, cexCov, Matrix.mul_apply, Fin.sum_univ_one,
    Matrix.transpose_apply, Matrix.cons_val_fin_one]

/-- Helper: portfolio volatility of the concrete input is zero. -/
theorem cex_vol : portfolioVolatility cexCov cexRCW = 0 := by
  rw [portfolioVolatility, cex_quad, Real.sqrt_zero]

/-- Helper: the volatility pass leaves the concrete vector alone. -/
theorem cex_vol_pass : adjustForVolatility cexLimits cexRCW cexCov = cexRCW := by
  rw [adjustForVolatility, cex_vol, if_neg (by norm_num [cexLimits])]

/-- Helper: the liquidity pass leaves the concrete vector alone. -/
theorem cex_liq_pass : adjustForLiquidity cexLimits cexRCW cexAdv = cexRCW := by
  ext i j
  rw [adjustForLiquidity]
  simp only [Matrix.of_apply, cexAdv, cexLimits, cexRCW_apply]
  rw [if_neg]
  rw [abs_of_nonneg (by norm_num : (0:ℝ) ≤ 1/2)]
  norm_num

/-- Helper: one full adjustment pass fixes the concrete vector. -/
theorem cex_pass :
    adjustmentPass cexLimits cexSectorMap cexCov cexAdv cexRCW = cexRCW := by
  rw [adjustmentPass, cex_pos_pass, cex_sector_pass, cex_vol_pass, cex_liq_pass]

/-- Helper: the concrete vector passes every constraint check. -/
theorem cex_check : checkAllConstraints cexLimits cexRCW cexRCW cexRet cexCov
    cexBench cexSectorMap cexAdv := by
  have habs : |(1/2 : ℝ)| = 1/2 := abs_of_nonneg (by norm_num)
  refine ⟨⟨?_, ?_⟩, ?_, ⟨?_, ?_⟩, ?_, ?_, ?_⟩
  · intro i
    rw [cexRCW_apply]
    constructor <;> norm_num [cexLimits]
  · rw [calculateTotalShortExposure, Fin.sum_univ_one, cexRCW_apply,
      if_neg (by norm_num)]
    norm_num [cexLimits]
  · intro i
    rw [cex_exposures, habs]
    norm_num [cexLimits]
  · rw [checkVolatilityLimit, cex_vol]
    norm_num [cexLimits]
  · rw [checkBetaDeviation]
    have h1 : (cexRet * cexRCW) 0 0 = 1/2 := by
      simp [cexRet, cexRCW, Matrix.mul_apply, Fin.sum_univ_one,
        Matrix.cons_val_fin_one]
    have h2 : cexBench 0 0 = (1:ℝ) := by
      simp [cexBench, Matrix.cons_val_fin_one]
    rw [Fin.sum_univ_one, Fin.sum_univ_one, h1, h2]
    rw [show (1/2 : ℝ) * 1 / (1 * 1) - 1 = -(1/2) by norm_num, abs_neg, habs]
    norm_num [cexLimits]
  · rw [checkTurnover, calculatePortfolioTurnover, Fin.sum_univ_one]
    simp [cexLimits]
  · intro i
    rw [cexRCW_apply, habs]
    norm_num [cexLimits, cexAdv]
  · have hcount : countActivePositions cexLimits cexRCW = 1 := by
      rw [countActivePositions, Finset.filter_true_of_mem]
      · simp
      · intro i _
        rw [cexRCW_apply, habs]
        norm_num [cexLimits]
    rw [checkDiversification, hcount]
    norm_num [cexLimits]

/-- Helper: the projector returns the concrete vector unchanged after a
single successful iteration. -/
theorem cex_enforce : enforceConstraints cexLimits cexRCW cexRCW cexRet cexCov
    cexBench cexSectorMap cexAdv = some cexRCW := by
  rw [enforceConstraints, show (100 : ℕ) = 99 + 1 from rfl,
    enforceConstraintsAux_succ_pos _ _ _ _ _ _ _ _ _
      (by rw [cex_pass]; exact cex_check), cex_pass]

/-- C3 counterexample: on the concrete one-asset input the projector
returns normally with the vector (1/2), whose component sum differs
from one by 1/2, far beyond the 1e-6 tolerance: a vector returned by
enforceConstraints need not sum to one. -/
theorem enforceConstraints_sum_not_one :
    enforceConstraints cexLimits cexRCW cexRCW cexRet cexCov cexBench
      cexSectorMap cexAdv = some cexRCW
    ∧ 1/1000000 < |(∑ i, cexRCW i 0) - 1| := by
  refine ⟨cex_enforce, ?_⟩
  rw [Fin.sum_univ_one, cexRCW_apply,
    show (1/2 : ℝ) - 1 = -(1/2) by norm_num, abs_neg,
    abs_of_nonneg (by norm_num : (0:ℝ) ≤ 1/2)]
  norm_num

/-- C3 (amended): every weight vector on which enforceConstraints returns
normally satisfies the position-bound, sector-cap, volatility-cap and
liquidity check predicates; the projector performs no renormalisation,
so the sum-to-one part of the original claim is dropped. -/
theorem enforceConstraints_partial_soundness (limits : ConstraintLimits)
    (proposedWeights currentWeights : Matrix (Fin n) (Fin 1) ℝ)
    (returns : Matrix (Fin T) (Fin n) ℝ) (covariance : Matrix (Fin n) (Fin n) ℝ)
    (benchmarkReturns : Matrix (Fin T) (Fin 1) ℝ) (sectorMap : Fin n → S)
    (adv : Fin n → ℝ) (w : Matrix (Fin n) (Fin 1) ℝ)
    (h : enforceConstraints limits proposedWeights currentWeights returns
      covariance benchmarkReturns sectorMap adv = some w) :
    checkPositionLimits limits w ∧ checkSectorExposure limits w sectorMap
    ∧ checkVolatilityLimit limits w covariance ∧ checkLiquidity limits w adv := by
  have hall := enforceConstraintsAux_sound limits currentWeights returns
    covariance benchmarkReturns sectorMap adv 100 proposedWeights w h
  exact ⟨hall.1, hall.2.1, hall.2.2.1.1, hall.2.2.2.2.1⟩

/-- C3 witness: the amended soundness applied to the concrete input on
which the projector returns normally. -/
theorem enforceConstraints_partial_soundness_witness :
    checkPositionLimits cexLimits cexRCW
    ∧ checkSectorExposure cexLimits cexRCW cexSectorMap
    ∧ checkVolatilityLimit cexLimits cexRCW cexCov
    ∧ checkLiquidity cexLimits cexRCW cexAdv :=
  enforceConstraints_partial_soundness cexLimits cexRCW cexRCW cexRet cexCov
    cexBench cexSectorMap cexAdv cexRCW cex_enforce

/-- C10: adjustForVolatility is an exact one-step projection: whenever
the incoming portfolio volatility strictly exceeds the (nonnegative)
volatility cap, the scaled vector has portfolio volatility exactly equal
to the cap, by positive homogeneity of the volatility; a vector already
within the cap is returned unchanged. -/
theorem adjustForVolatility_projection (limits : ConstraintLimits)
    (weights : Matrix (Fin n) (Fin 1) ℝ) (covariance : Matrix (Fin n) (Fin n) ℝ)
    (hmax : 0 ≤ limits.maxVolatility) :
    (limits.maxVolatility < portfolioVolatility covariance weights →
      portfolioVolatility covariance
        (adjustForVolatility limits weights covariance) = limits.maxVolatility)
    ∧ (portfolioVolatility covariance weights ≤ limits.maxVolatility →
      adjustForVolatility limits weights covariance = weights) := by
  constructor
  · intro h
    have hvolpos : 0 < portfolioVolatility covariance weights :=
      lt_of_le_of_lt hmax h
    rw [adjustForVolatility, if_pos h, portfolioVolatility]
    have hsc : (((limits.maxVolatility / portfolioVolatility covariance weights)
          • weights).transpose * covariance
        * ((limits.maxVolatility / portfolioVolatility covariance weights)
          • weights)) 0 0
        = (limits.maxVolatility / portfolioVolatility covariance weights)^2
          * ((weights.transpose * covariance * weights) 0 0) := by
      rw [Matrix.transpose_smul, Matrix.smul_mul, Matrix.smul_mul,
        Matrix.mul_smul]
      simp only [Matrix.smul_apply, smul_eq_mul]
      ring
    rw [hsc, Real.sqrt_mul (sq_nonneg _),
      Real.sqrt_sq (div_nonneg hmax hvolpos.le),
      show Real.sqrt ((weights.transpose * covariance * weights) 0 0)
        = portfolioVolatility covariance weights from rfl]
    exact div_mul_cancel₀ _ hvolpos.ne'
  · intro h
    rw [adjustForVolatility, if_neg (not_lt.mpr h)]

/-- Helper: quadratic form of the concrete volatility-witness input. -/
theorem volW_quad : (volW.transpose * volCov * volW) 0 0 = 4 := by
  simp [volW, volCov, Matrix.mul_apply, Fin.sum_univ_one,
    Matrix.transpose_apply, Matrix.cons_val_fin_one]

/-- Helper: portfolio volatility of the concrete witness input is 2. -/
theorem volW_vol : portfolioVolatility volCov volW = 2 := by
  rw [portfolioVolatility, volW_quad, show (4:ℝ) = 2^2 by norm_num,
    Real.sqrt_sq (by norm_num)]

/-- C10 witness: with cap 1 and incoming volatility 2 the scaled vector
has volatility exactly 1. -/
theorem adjustForVolatility_projection_witness :
    (0 : ℝ) ≤ cexLimits.maxVolatility
    ∧ cexLimits.maxVolatility < portfolioVolatility volCov volW
    ∧ portfolioVolatility volCov (adjustForVolatility cexLimits volW volCov)
      = cexLimits.maxVolatility := by
  have h0 : (0:ℝ) ≤ cexLimits.maxVolatility := by norm_num [cexLimits]
  have h1 : cexLimits.maxVolatility < portfolioVolatility volCov volW := by
    rw [volW_vol]
    norm_num [cexLimits]
  exact ⟨h0, h1, (adjustForVolatility_projection cexLimits volW volCov h0).1 h1⟩

end RiskConstraints

/-- C9: the three turnover implementations (TransactionCostModel, the
risk-constraints module and the rebalancer) compute the same function on
every pair of equal-length weight vectors, namely one half of the sum of
absolute componentwise differences. -/
theorem turnover_implementations_agree {m : ℕ}
    (oldWeights newWeights : Matrix (Fin m) (Fin 1) ℝ) :
    TransactionCostModel.calculateTurnover oldWeights newWeights
      = RiskConstraints.calculatePortfolioTurnover oldWeights newWeights
    ∧ RiskConstraints.calculatePortfolioTurnover oldWeights newWeights
      = PortfolioRebalancer.calculateTurnover oldWeights newWeights
    ∧ TransactionCostModel.calculateTurnover oldWeights newWeights
      = (∑ i, |newWeights i 0 - oldWeights i 0|) / 2 :=
  ⟨rfl, rfl, rfl⟩
